import Mathlib

/-!
Shallow embedding of the DictLearner repository (src/DictLearner.py and
src/LCALearner.py).  Matrices are modelled as functions over Fin; Python
floats are modelled as exact rationals where the code's arithmetic stays
rational, and as real numbers where the code takes square roots (row
normalization in DictLearner.learn).  A separate small model NpF captures
the IEEE special values (plus/minus infinity and NaN) that the divergence
guard in LCALearner.infer_cpu distinguishes.
-/

/-- Sign of a rational, modelling np.sign on finite doubles. -/
def sgnQ (q : ℚ) : ℚ := if 0 < q then 1 else if q < 0 then -1 else 0

/-- Soft-threshold output s = sign(u) * max(0, |u| - thresh), from
LCALearner.infer_cpu line 131. -/
def softThresh (u t : ℚ) : ℚ := sgnQ u * max 0 (|u| - t)

/-- Hard-threshold output: s = u, then entries with |s| < thresh set to 0,
from LCALearner.infer_cpu lines 133-134. -/
def hardThresh (u t : ℚ) : ℚ := if |u| < t then 0 else u

/-- State of the LCA inner loop of LCALearner.infer_cpu: membrane potentials
u, outputs s (both of numpy shape (nstim, ndict)) and the per-stimulus
threshold vector. -/
structure InfStateQ (nd nb : Nat) where
  u : Fin nb → Fin nd → ℚ
  s : Fin nb → Fin nd → ℚ
  thresh : Fin nb → ℚ

/-- Overlap matrix c = Q.dot(Q.T) - eye(ndict), LCALearner.infer_cpu line 106. -/
def cMatQ {nd dd : Nat} (Q : Fin nd → Fin dd → ℚ) : Fin nd → Fin nd → ℚ :=
  fun i j => (∑ k, Q i k * Q j k) - (if i = j then 1 else 0)

/-- Stimulus/dictionary overlaps b = (Q.dot(X)).T, LCALearner.infer_cpu line 109. -/
def bMatQ {nd dd nb : Nat} (Q : Fin nd → Fin dd → ℚ) (X : Fin dd → Fin nb → ℚ) :
    Fin nb → Fin nd → ℚ :=
  fun i j => ∑ k, Q j k * X k i

/-- Initial per-stimulus thresholds: np.max([mean |b| over the dictionary
axis, min_thresh]) for each stimulus, LCALearner.infer_cpu lines 112-113. -/
def initThreshQ {nd nb : Nat} (bm : Fin nb → Fin nd → ℚ) (mt : ℚ) : Fin nb → ℚ :=
  fun i => max ((∑ j, |bm i j|) / (nd : ℚ)) mt

/-- Membrane-potential update u = infrate*(b - s.dot(c)) + (1-infrate)*u,
LCALearner.infer_cpu lines 126-127. -/
def uUpdateQ {nd nb : Nat} (infrate : ℚ) (c : Fin nd → Fin nd → ℚ)
    (bm : Fin nb → Fin nd → ℚ) (st : InfStateQ nd nb) : Fin nb → Fin nd → ℚ :=
  fun i j => infrate * (bm i j - ∑ k, st.s i k * c k j) + (1 - infrate) * st.u i j

/-- One inner iteration of LCALearner.infer_cpu (lines 124-143) in the exact
rational model: update u, threshold it into s (soft or hard), then decay the
thresholds by adapt and floor them at min_thresh.  The NaN guard of line 128
cannot fire over ℚ; it is modelled separately over NpF below. -/
def innerStepQ {nd nb : Nat} (infrate adapt mt : ℚ) (soft : Bool)
    (c : Fin nd → Fin nd → ℚ) (bm : Fin nb → Fin nd → ℚ)
    (st : InfStateQ nd nb) : InfStateQ nd nb :=
  let u1 := uUpdateQ infrate c bm st
  let s1 : Fin nb → Fin nd → ℚ := fun i j =>
    if soft then softThresh (u1 i j) (st.thresh i) else hardThresh (u1 i j) (st.thresh i)
  let t1 : Fin nb → ℚ := fun i =>
    if adapt * st.thresh i < mt then mt else adapt * st.thresh i
  ⟨u1, s1, t1⟩

/-- Hyperparameters of LCALearner relevant to inference. -/
structure LCAParams where
  infrate : ℚ
  adapt : ℚ
  min_thresh : ℚ
  softthresh : Bool
  niter : Nat
  tolerance : ℚ
  max_iter : Option Nat

/-- One block of niter inner iterations (the for-loop of infer_cpu line 124). -/
def innerBlockQ {nd dd nb : Nat} (p : LCAParams) (Q : Fin nd → Fin dd → ℚ)
    (X : Fin dd → Fin nb → ℚ) (st : InfStateQ nd nb) : InfStateQ nd nb :=
  (innerStepQ p.infrate p.adapt p.min_thresh p.softthresh (cMatQ Q) (bMatQ Q X))^[p.niter] st

/-- Mean-squared reconstruction error np.mean((X.T - s.dot(Q))**2),
LCALearner.infer_cpu line 145. -/
def mseQ {nd dd nb : Nat} (Q : Fin nd → Fin dd → ℚ) (X : Fin dd → Fin nb → ℚ)
    (s : Fin nb → Fin nd → ℚ) : ℚ :=
  (∑ i, ∑ j, (X j i - ∑ k, s i k * Q k j) ^ 2) / ((nb : ℚ) * (dd : ℚ))

/-- While-loop condition error>tolerance and (max_iter is None or
outer_k<max_iter), LCALearner.infer_cpu line 123. -/
def continueCond (mi : Option Nat) (k : Nat) (tol err : ℚ) : Bool :=
  decide (tol < err) && (match mi with | none => true | some m => decide (k < m))

/-- Python defaulting max_iter = max_iter or self.max_iter (line 97): both
None and the int 0 are falsy, so neither can serve as a per-call cap. -/
def effMaxIter (arg inst : Option Nat) : Option Nat :=
  match arg with
  | none => inst
  | some 0 => inst
  | some m => some m

/-- Python defaulting tolerance = tolerance or self.tolerance (line 96):
None and 0.0 are falsy. -/
def effTol (arg : Option ℚ) (inst : ℚ) : ℚ :=
  match arg with
  | none => inst
  | some q => if q = 0 then inst else q

/-- Outer convergence-retry loop of infer_cpu (lines 121-146), indexed by
fuel since the Python while loop need not terminate: none means the loop is
still running after consuming all the fuel.  On each pass the current state
(u, s, thresh) is evolved in place by one block of niter inner iterations
and the error is recomputed from the new s. -/
def outerLoopQ {nd dd nb : Nat} (p : LCAParams) (Q : Fin nd → Fin dd → ℚ)
    (X : Fin dd → Fin nb → ℚ) (mi : Option Nat) (tol : ℚ) :
    Nat → Nat → ℚ → InfStateQ nd nb → Option (InfStateQ nd nb × ℚ × Nat)
  | 0, _, _, _ => none
  | fuel + 1, k, err, st =>
    if continueCond mi k tol err then
      outerLoopQ p Q X mi tol fuel (k + 1)
        (mseQ Q X (innerBlockQ p Q X st).s) (innerBlockQ p Q X st)
    else some (st, err, k)

/-- Initial inner-loop state of infer_cpu: u and s zero (lines 101-102),
thresholds from the overlaps (lines 112-113). -/
def initStateQ {nd dd nb : Nat} (p : LCAParams) (Q : Fin nd → Fin dd → ℚ)
    (X : Fin dd → Fin nb → ℚ) : InfStateQ nd nb :=
  ⟨fun _ _ => 0, fun _ _ => 0, initThreshQ (bMatQ Q X) p.min_thresh⟩

/-- infer_cpu in the rational model: argument defaulting, initial error
tolerance+1 (line 121), then the outer loop from outer_k = 0. -/
def inferCpuQ {nd dd nb : Nat} (p : LCAParams) (Q : Fin nd → Fin dd → ℚ)
    (X : Fin dd → Fin nb → ℚ) (tolArg : Option ℚ) (maxArg : Option Nat)
    (fuel : Nat) : Option (InfStateQ nd nb × ℚ × Nat) :=
  let tol := effTol tolArg p.tolerance
  let mi := effMaxIter maxArg p.max_iter
  outerLoopQ p Q X mi tol fuel 0 (tol + 1) (initStateQ p Q X)

/-- After any single inner iteration the threshold of every stimulus is at
least min_thresh, whatever the adaptation factor: the update floors the
decayed value at min_thresh. -/
lemma innerStepQ_thresh_ge {nd nb : Nat} (infrate adapt mt : ℚ) (soft : Bool)
    (c : Fin nd → Fin nd → ℚ) (bm : Fin nb → Fin nd → ℚ)
    (st : InfStateQ nd nb) (i : Fin nb) :
    mt ≤ (innerStepQ infrate adapt mt soft c bm st).thresh i := by
  dsimp [innerStepQ]
  split
  · exact le_refl mt
  · next h => exact le_of_not_lt h

/-- Concrete 1x1 all-ones matrix used in witnesses. -/
def oneMat1 : Fin 1 → Fin 1 → ℚ := fun _ _ => 1

/-- Concrete 1x1 zero matrix used in witnesses. -/
def zeroMat1 : Fin 1 → Fin 1 → ℚ := fun _ _ => 0

/-- Concrete hyperparameters matching the LCALearner constructor defaults
(infrate=.003 is written as 3/1000, adapt=.95 as 19/20, min_thresh=.4 as 2/5,
tolerance=.01 as 1/100, max_iter=4), with niter shrunk to 1 for witnesses. -/
def pW : LCAParams :=
  { infrate := 3/1000, adapt := 19/20, min_thresh := 2/5, softthresh := false
    niter := 1, tolerance := 1/100, max_iter := some 4 }

/-- Concrete inner-loop state used in witnesses. -/
def stW : InfStateQ 1 1 := ⟨zeroMat1, zeroMat1, fun _ => 1⟩

/-- C2: in infer_cpu with min_thresh ≥ 0, every entry of the per-stimulus
threshold vector is at least min_thresh at initialization (k = 0) and after
every inner iteration (k ≥ 1), for any adaptation factor adapt: the
initialization takes an elementwise max with min_thresh and each iteration
floors the decayed threshold at min_thresh. -/
theorem C2_thresh_floor {nd dd nb : Nat} (p : LCAParams)
    (Q : Fin nd → Fin dd → ℚ) (X : Fin dd → Fin nb → ℚ)
    (_hmt : 0 ≤ p.min_thresh) (k : Nat) (i : Fin nb) :
    p.min_thresh ≤
      ((innerStepQ p.infrate p.adapt p.min_thresh p.softthresh (cMatQ Q)
        (bMatQ Q X))^[k] (initStateQ p Q X)).thresh i := by
  induction k with
  | zero =>
      dsimp [initStateQ, initThreshQ]
      exact le_max_right _ _
  | succ k ih =>
      rw [Function.iterate_succ_apply']
      exact innerStepQ_thresh_ge _ _ _ _ _ _ _ _

/-- Witness for C2 at a concrete inference call: dictionary and stimulus
both the 1x1 all-ones matrix, default hyperparameters, three iterations. -/
theorem C2_thresh_floor_witness :
    0 ≤ pW.min_thresh ∧
      pW.min_thresh ≤
        ((innerStepQ pW.infrate pW.adapt pW.min_thresh pW.softthresh
          (cMatQ oneMat1) (bMatQ oneMat1 oneMat1))^[3]
          (initStateQ pW oneMat1 oneMat1)).thresh 0 :=
  ⟨by norm_num [pW], C2_thresh_floor pW oneMat1 oneMat1 (by norm_num [pW]) 3 0⟩

/-- C3 counterexample: the claim asserts that a drive whose magnitude equals
the threshold exactly gives zero output in hard mode; the code (line 134)
zeroes only entries with absolute value strictly below the threshold, so at
u = 1, thresh = 1 hard mode outputs 1, not 0. -/
theorem C3_boundary_cex : ¬ hardThresh (1 : ℚ) 1 = 0 := by decide

/-- C3 amended: in every inner iteration, soft mode produces
sign(u)*max(0,|u|-thresh) and hard mode zeroes exactly the entries with
|u| strictly below the threshold; at |u| equal to the threshold hard mode
outputs u itself (magnitude equal to the threshold, not zero) while soft
mode outputs zero. -/
theorem C3_thresholding {nd nb : Nat} (infrate adapt mt : ℚ) (soft : Bool)
    (c : Fin nd → Fin nd → ℚ) (bm : Fin nb → Fin nd → ℚ)
    (st : InfStateQ nd nb) (i : Fin nb) (j : Fin nd) :
    (soft = true →
      (innerStepQ infrate adapt mt soft c bm st).s i j =
        sgnQ (uUpdateQ infrate c bm st i j) *
          max 0 (|uUpdateQ infrate c bm st i j| - st.thresh i)) ∧
    (soft = false → |uUpdateQ infrate c bm st i j| < st.thresh i →
      (innerStepQ infrate adapt mt soft c bm st).s i j = 0) ∧
    (soft = false → |uUpdateQ infrate c bm st i j| = st.thresh i →
      (innerStepQ infrate adapt mt soft c bm st).s i j =
        uUpdateQ infrate c bm st i j) ∧
    (soft = true → |uUpdateQ infrate c bm st i j| = st.thresh i →
      (innerStepQ infrate adapt mt soft c bm st).s i j = 0) := by
  refine ⟨?_, ?_, ?_, ?_⟩
  · intro hs
    simp [innerStepQ, hs, softThresh]
  · intro hs hlt
    simp [innerStepQ, hs, hardThresh, hlt]
  · intro hs heq
    simp [innerStepQ, hs, hardThresh, heq]
  · intro hs heq
    simp [innerStepQ, hs, softThresh, heq]

/-- Witness for C3 amended, hard mode at the threshold boundary: with
infrate 1, zero competition and unit drive, u becomes exactly the threshold
1 and the output equals u (in particular it is not zeroed). -/
theorem C3_thresholding_witness :
    |uUpdateQ 1 zeroMat1 oneMat1 stW 0 0| = stW.thresh 0 ∧
      (innerStepQ 1 (19/20) (2/5) false zeroMat1 oneMat1 stW).s 0 0 =
        uUpdateQ 1 zeroMat1 oneMat1 stW 0 0 := by
  constructor
  · simp [uUpdateQ, stW, zeroMat1, oneMat1]
  · exact (C3_thresholding 1 (19/20) (2/5) false zeroMat1 oneMat1 stW 0 0).2.2.1
      rfl (by simp [uUpdateQ, stW, zeroMat1, oneMat1])

/-- Hyperparameters with max_iter set to the no-cap sentinel None and
tolerance 1/2, used to exhibit a run of the outer loop that never stops. -/
def pNoCap : LCAParams :=
  { infrate := 3/1000, adapt := 19/20, min_thresh := 2/5, softthresh := false
    niter := 1, tolerance := 1/2, max_iter := none }

/-- With the all-zero 1x1 dictionary the reconstruction s.dot(Q) vanishes,
so the mean-squared error against the all-ones stimulus is 1 whatever the
coefficients are. -/
lemma mseQ_zeroDict (s : Fin 1 → Fin 1 → ℚ) : mseQ zeroMat1 oneMat1 s = 1 := by
  simp [mseQ, zeroMat1, oneMat1, Fin.sum_univ_one]

/-- With no cap and a zero dictionary the error stays 1 > tolerance forever,
so the outer loop never returns, whatever fuel it is given. -/
lemma outerLoopQ_noCap_none (fuel : Nat) :
    ∀ (k : Nat) (err : ℚ) (st : InfStateQ 1 1), 1/2 < err →
      outerLoopQ pNoCap zeroMat1 oneMat1 none (1/2) fuel k err st = none := by
  induction fuel with
  | zero => intro k err st _; rfl
  | succ n ih =>
      intro k err st h
      have hc : continueCond none k (1/2) err = true := by
        simp only [continueCond]
        simp only [Bool.and_true]
        exact decide_eq_true h
      have hm : mseQ zeroMat1 oneMat1 (innerBlockQ pNoCap zeroMat1 oneMat1 st).s = 1 :=
        mseQ_zeroDict _
      simp only [outerLoopQ, hc, if_true]
      have h1 : (1 : ℚ)/2 < mseQ zeroMat1 oneMat1 (innerBlockQ pNoCap zeroMat1 oneMat1 st).s := by
        rw [hm]; norm_num
      exact ih _ _ _ h1

/-- C5: the outer loop of infer_cpu is a convergence-gated retry.  First
conjunct: while the error exceeds tolerance and the cap (if any) is not
reached, the loop repeats one whole block of niter inner iterations with u,
s and thresholds carried over from the current state (the recursive call
receives innerBlockQ of the same state, not a reset one) and the error
recomputed from the new coefficients.  Second conjunct: once the error is at
most tolerance the loop stops and returns the carried state.  Third
conjunct: the no-cap sentinel is None, distinct from zero (a max_iter
argument of None or 0 defers to the instance value, and with cap None the
loop condition reduces to the pure tolerance test).  Fourth conjunct: under
the None sentinel the loop can run forever: with a zero dictionary the
error stays above tolerance and infer_cpu never returns, for every fuel. -/
theorem C5_outer_retry :
    (∀ (nd dd nb : Nat) (p : LCAParams) (Q : Fin nd → Fin dd → ℚ)
        (X : Fin dd → Fin nb → ℚ) (mi : Option Nat) (tol : ℚ)
        (fuel k : Nat) (err : ℚ) (st : InfStateQ nd nb),
        continueCond mi k tol err = true →
        outerLoopQ p Q X mi tol (fuel + 1) k err st =
          outerLoopQ p Q X mi tol fuel (k + 1)
            (mseQ Q X (innerBlockQ p Q X st).s) (innerBlockQ p Q X st)) ∧
    (∀ (nd dd nb : Nat) (p : LCAParams) (Q : Fin nd → Fin dd → ℚ)
        (X : Fin dd → Fin nb → ℚ) (mi : Option Nat) (tol : ℚ)
        (fuel k : Nat) (err : ℚ) (st : InfStateQ nd nb),
        err ≤ tol →
        outerLoopQ p Q X mi tol (fuel + 1) k err st = some (st, err, k)) ∧
    ((∀ inst, effMaxIter none inst = inst) ∧
      (∀ inst, effMaxIter (some 0) inst = inst) ∧
      (∀ (k : Nat) (tol err : ℚ), continueCond none k tol err = decide (tol < err))) ∧
    (∀ fuel, inferCpuQ pNoCap zeroMat1 oneMat1 none none fuel = none) := by
  refine ⟨?_, ?_, ⟨fun _ => rfl, fun _ => rfl, ?_⟩, ?_⟩
  · intro nd dd nb p Q X mi tol fuel k err st h
    simp only [outerLoopQ, h, if_true]
  · intro nd dd nb p Q X mi tol fuel k err st h
    have hc : continueCond mi k tol err = false := by
      simp [continueCond, not_lt.mpr h]
    simp only [outerLoopQ, hc, Bool.false_eq_true, if_false]
  · intro k tol err
    simp [continueCond]
  · intro fuel
    have h := outerLoopQ_noCap_none fuel 0 (1/2 + 1)
      (initStateQ pNoCap zeroMat1 oneMat1) (by norm_num)
    simpa [inferCpuQ, effTol, effMaxIter, pNoCap] using h

/-- Witness for C5: a concrete retry step (error 2 above tolerance 1/100,
outer_k 0 below the cap 4) unfolds to the loop on the evolved state, and a
concrete converged step (error 0) stops with the carried state. -/
theorem C5_outer_retry_witness :
    (continueCond (some 4) 0 (1/100) 2 = true ∧
      outerLoopQ pW oneMat1 oneMat1 (some 4) (1/100) 1 0 2 stW =
        outerLoopQ pW oneMat1 oneMat1 (some 4) (1/100) 0 1
          (mseQ oneMat1 oneMat1 (innerBlockQ pW oneMat1 oneMat1 stW).s)
          (innerBlockQ pW oneMat1 oneMat1 stW)) ∧
    ((0 : ℚ) ≤ 1/100 ∧
      outerLoopQ pW oneMat1 oneMat1 (some 4) (1/100) 1 0 0 stW = some (stW, 0, 0)) :=
  ⟨⟨by norm_num [continueCond],
    C5_outer_retry.1 1 1 1 pW oneMat1 oneMat1 (some 4) (1/100) 0 0 2 stW
      (by norm_num [continueCond])⟩,
   ⟨by norm_num,
    C5_outer_retry.2.1 1 1 1 pW oneMat1 oneMat1 (some 4) (1/100) 0 0 0 stW (by norm_num)⟩⟩

/-- DictLearner.adjust_rates (lines 208-211): multiplies both the learning
rate and theta by the factor; returns the (learnrate, theta) pair. -/
def DictLearner_adjust_rates (learnrate theta f : ℚ) : ℚ × ℚ :=
  (f * learnrate, f * theta)

/-- LCALearner.adjust_rates (lines 184-187) overrides the base method and
multiplies only the learning rate; theta is left unchanged (the infrate
line is commented out in the source). -/
def LCALearner_adjust_rates (learnrate theta f : ℚ) : ℚ × ℚ :=
  (f * learnrate, theta)

/-- C6 counterexample: for the LCA learner (the override used by the trial
loop), decaying with factor 1/2 from theta = 0.022 leaves theta at 0.022,
which is not half its prior value. -/
theorem C6_lca_theta_cex :
    ¬ (LCALearner_adjust_rates 1 (11/500) (1/2)).2 = (1/2) * (11/500) := by
  norm_num [LCALearner_adjust_rates]

/-- C6 amended: DictLearner.adjust_rates with factor 1/2 halves both the
learning rate and theta exactly; the LCALearner override halves only the
learning rate and leaves theta unchanged. -/
theorem C6_rate_decay (lr th : ℚ) :
    DictLearner_adjust_rates lr th (1/2) = (lr / 2, th / 2) ∧
      LCALearner_adjust_rates lr th (1/2) = (lr / 2, th) := by
  refine ⟨?_, ?_⟩
  · show ((1/2 : ℚ) * lr, (1/2 : ℚ) * th) = (lr / 2, th / 2)
    rw [show (1/2 : ℚ) * lr = lr / 2 by ring, show (1/2 : ℚ) * th = th / 2 by ring]
  · show ((1/2 : ℚ) * lr, th) = (lr / 2, th)
    rw [show (1/2 : ℚ) * lr = lr / 2 by ring]

/-- Per-unit statistics fields of a learner together with the dictionary,
as touched by the sort operations of DictLearner/LCALearner. -/
structure LearnerStatsState (n d : Nat) where
  Q : Fin n → Fin d → ℚ
  L0acts : Fin n → ℚ
  L1acts : Fin n → ℚ
  L2acts : Fin n → ℚ
  meanacts : Fin n → ℚ
  corrmatrix_ave : Fin n → Fin n → ℚ

/-- LCALearner.sort_dict (lines 167-182): only self.Q = self.Q[sorter] is
executed; unlike DictLearner.sort it does not touch the per-unit statistics.
The sorter (argsort of the usage means computed by inference) is passed in
as a parameter. -/
def LCALearner_sort_dict {n d : Nat} (st : LearnerStatsState n d)
    (sorter : Fin n → Fin n) : LearnerStatsState n d :=
  { st with Q := fun i => st.Q (sorter i) }

/-- C10: LCALearner.sort_dict permutes only the rows of Q; L0acts, L1acts,
L2acts, meanacts and corrmatrix_ave are all left untouched, so after a sort
that actually reorders rows the stored per-unit statistics no longer line up
with the dictionary rows. -/
theorem C10_sort_dict_frame :
    ∀ (n d : Nat) (st : LearnerStatsState n d) (sorter : Fin n → Fin n),
    (∀ i, (LCALearner_sort_dict st sorter).Q i = st.Q (sorter i)) ∧
    (LCALearner_sort_dict st sorter).L0acts = st.L0acts ∧
    (LCALearner_sort_dict st sorter).L1acts = st.L1acts ∧
    (LCALearner_sort_dict st sorter).L2acts = st.L2acts ∧
    (LCALearner_sort_dict st sorter).meanacts = st.meanacts ∧
    (LCALearner_sort_dict st sorter).corrmatrix_ave = st.corrmatrix_ave :=
  fun _ _ _ _ => ⟨fun _ => rfl, rfl, rfl, rfl, rfl, rfl⟩

/-- Residual R = data.T - np.dot(coeffs.T, Q), DictLearner.learn line 112.
Data X has numpy shape (D, B), coefficients S shape (N, B), Q shape (N, D);
R has shape (B, D). -/
noncomputable def residualR {n d b : Nat} (Q : Fin n → Fin d → ℝ)
    (X : Fin d → Fin b → ℝ) (S : Fin n → Fin b → ℝ) : Fin b → Fin d → ℝ :=
  fun i j => X j i - ∑ k, S k i * Q k j

/-- Gradient step Q = Q + learnrate*np.dot(coeffs, R), DictLearner.learn
line 113.  The learning rate is a hyperparameter, kept rational. -/
noncomputable def gradStepQ {n d b : Nat} (Q : Fin n → Fin d → ℝ)
    (X : Fin d → Fin b → ℝ) (S : Fin n → Fin b → ℝ) (lr : ℚ) :
    Fin n → Fin d → ℝ :=
  fun i j => Q i j + (lr : ℝ) * ∑ k, S i k * residualR Q X S k j

/-- Orthogonality step of DictLearner.learn lines 114-117: when theta is
nonzero, Q = Q + theta*(Q - Q.dot(Q.T.dot(Q))), computed from the matrix
already updated by the gradient step. -/
noncomputable def thetaStepQ {n d : Nat} (M : Fin n → Fin d → ℝ) (th : ℚ) :
    Fin n → Fin d → ℝ :=
  if th ≠ 0 then
    fun i j => M i j + (th : ℝ) * (M i j - ∑ m, M i m * (∑ k, M k m * M k j))
  else M

/-- Dictionary after the gradient and orthogonality updates, before the
optional row normalization of DictLearner.learn lines 118-121. -/
noncomputable def preNormQ {n d b : Nat} (Q : Fin n → Fin d → ℝ)
    (X : Fin d → Fin b → ℝ) (S : Fin n → Fin b → ℝ) (lr th : ℚ) :
    Fin n → Fin d → ℝ :=
  thetaStepQ (gradStepQ Q X S lr) th

/-- Row normalization np.diag(1./np.sqrt(np.sum(Q*Q,1))).dot(Q),
DictLearner.learn lines 120-121: each row is scaled by the reciprocal square
root of its sum of squares.  The division is performed unconditionally; no
zero-norm check exists in the source. -/
noncomputable def rowNormalize {n d : Nat} (M : Fin n → Fin d → ℝ) :
    Fin n → Fin d → ℝ :=
  fun i j => (1 / Real.sqrt (∑ k, M i k * M i k)) * M i j

/-- Dictionary returned by DictLearner.learn (lines 106-122). -/
noncomputable def learnQ {n d b : Nat} (Q : Fin n → Fin d → ℝ)
    (X : Fin d → Fin b → ℝ) (S : Fin n → Fin b → ℝ) (lr th : ℚ)
    (normalize : Bool) : Fin n → Fin d → ℝ :=
  if normalize then rowNormalize (preNormQ Q X S lr th) else preNormQ Q X S lr th

/-- Scalar return value np.mean(R**2) of DictLearner.learn line 122. -/
noncomputable def learnMSE {n d b : Nat} (Q : Fin n → Fin d → ℝ)
    (X : Fin d → Fin b → ℝ) (S : Fin n → Fin b → ℝ) : ℝ :=
  (∑ i, ∑ j, residualR Q X S i j ^ 2) / ((b : ℝ) * (d : ℝ))

/-- C1: after DictLearner.learn with normalize=True, every row of the
returned dictionary has unit Euclidean norm (squared norm exactly 1 in the
real-number model), provided no row of the pre-normalization dictionary has
zero norm. -/
theorem C1_unit_rows {n d b : Nat} (Q : Fin n → Fin d → ℝ)
    (X : Fin d → Fin b → ℝ) (S : Fin n → Fin b → ℝ) (lr th : ℚ)
    (h : ∀ i, ∑ k, preNormQ Q X S lr th i k * preNormQ Q X S lr th i k ≠ 0) :
    ∀ i, ∑ j, (learnQ Q X S lr th true i j) ^ 2 = 1 := by
  intro i
  set M := preNormQ Q X S lr th with hM
  set T := ∑ k, M i k * M i k with hT
  have hpos : 0 < T := by
    rcases (Finset.sum_nonneg fun k _ => mul_self_nonneg (M i k)).lt_or_eq with h1 | h1
    · exact h1
    · exact absurd h1.symm (h i)
  have hTsq : ∑ j, (M i j) ^ 2 = T := by
    rw [hT]
    exact Finset.sum_congr rfl fun j _ => pow_two (M i j)
  have hcalc : ∀ j, learnQ Q X S lr th true i j = (1 / Real.sqrt T) * M i j :=
    fun j => rfl
  calc ∑ j, (learnQ Q X S lr th true i j) ^ 2
      = ∑ j, (1 / Real.sqrt T) ^ 2 * (M i j) ^ 2 := by
        simp only [hcalc, mul_pow]
    _ = (1 / Real.sqrt T) ^ 2 * ∑ j, (M i j) ^ 2 := by rw [Finset.mul_sum]
    _ = (1 / T) * T := by rw [hTsq, div_pow, one_pow, Real.sq_sqrt hpos.le]
    _ = 1 := by rw [one_div, inv_mul_cancel₀ hpos.ne']

/-- Concrete 1x1 real matrices for the learn witnesses. -/
noncomputable def Qtwo : Fin 1 → Fin 1 → ℝ := fun _ _ => 2

/-- Zero 1x1 real stimulus batch. -/
noncomputable def Xzero : Fin 1 → Fin 1 → ℝ := fun _ _ => 0

/-- Zero 1x1 real coefficient batch. -/
noncomputable def Szero : Fin 1 → Fin 1 → ℝ := fun _ _ => 0

/-- Zero 1x1 real dictionary (a degenerate, zero-norm row). -/
noncomputable def Qzero : Fin 1 → Fin 1 → ℝ := fun _ _ => 0

/-- Witness for C1: dictionary [[2]], zero data and coefficients, learning
rate 1, theta 0; the pre-normalization row is [[2]] with nonzero norm, and
the returned row has squared norm 1. -/
theorem C1_unit_rows_witness :
    (∀ i : Fin 1, ∑ k, preNormQ Qtwo Xzero Szero 1 0 i k *
        preNormQ Qtwo Xzero Szero 1 0 i k ≠ 0) ∧
      (∀ i : Fin 1, ∑ j, (learnQ Qtwo Xzero Szero 1 0 true i j) ^ 2 = 1) := by
  have hw : ∀ i : Fin 1, ∑ k, preNormQ Qtwo Xzero Szero 1 0 i k *
      preNormQ Qtwo Xzero Szero 1 0 i k ≠ 0 := by
    intro i
    simp [preNormQ, thetaStepQ, gradStepQ, residualR, Qtwo, Xzero, Szero,
      Fin.sum_univ_one]
  exact ⟨hw, C1_unit_rows Qtwo Xzero Szero 1 0 hw⟩

/-- C7 failing input, evaluating the code: with the zero 1x1 dictionary,
zero data/coefficients, learnrate 1, theta 0 and normalize=True, the
pre-normalization row has zero norm, yet learn returns normally (it is a
total function with no error path: the source divides unconditionally,
numpy producing inf*0 = NaN entries, the real-number model a zero row) and
the returned row is degenerate: its squared norm is 0, not 1.  No
DegenerateDictionaryElement error naming the row exists anywhere in the
code. -/
theorem C7_zero_row_silent :
    (∑ k, preNormQ Qzero Xzero Szero 1 0 0 k *
        preNormQ Qzero Xzero Szero 1 0 0 k = 0) ∧
      (∀ j, learnQ Qzero Xzero Szero 1 0 true 0 j = 0) ∧
      ∑ j, (learnQ Qzero Xzero Szero 1 0 true 0 j) ^ 2 = 0 := by
  have hM : ∀ (a : Fin 1) (c : Fin 1), preNormQ Qzero Xzero Szero 1 0 a c = 0 := by
    intro a c
    simp [preNormQ, thetaStepQ, gradStepQ, residualR, Qzero, Xzero, Szero,
      Fin.sum_univ_one]
  have hL : ∀ j, learnQ Qzero Xzero Szero 1 0 true 0 j = 0 := by
    intro j
    show (1 / Real.sqrt (∑ k, preNormQ Qzero Xzero Szero 1 0 0 k *
        preNormQ Qzero Xzero Szero 1 0 0 k)) * preNormQ Qzero Xzero Szero 1 0 0 j = 0
    rw [hM 0 j, mul_zero]
  refine ⟨?_, hL, ?_⟩
  · simp [hM]
  · simp [hL]

/-- Model of a numpy double for the divergence guard of infer_cpu: a finite
value (kept exact as a rational, ignoring rounding and overflow), one of the
two infinities, or NaN. -/
inductive NpF where
  | fin : ℚ → NpF
  | pinf : NpF
  | ninf : NpF
  | nan : NpF
deriving DecidableEq

/-- np.isnan: true exactly on NaN; both infinities are not NaN. -/
def isnanF : NpF → Bool
  | .nan => true
  | _ => false

/-- A value is finite when it is neither NaN nor an infinity. -/
def isFiniteF : NpF → Bool
  | .fin _ => true
  | _ => false

/-- IEEE negation. -/
def negF : NpF → NpF
  | .fin q => .fin (-q)
  | .pinf => .ninf
  | .ninf => .pinf
  | .nan => .nan

/-- IEEE addition on the model: NaN absorbs, opposite infinities give NaN. -/
def addF : NpF → NpF → NpF
  | .nan, _ => .nan
  | _, .nan => .nan
  | .pinf, .ninf => .nan
  | .ninf, .pinf => .nan
  | .pinf, _ => .pinf
  | _, .pinf => .pinf
  | .ninf, _ => .ninf
  | _, .ninf => .ninf
  | .fin a, .fin b => .fin (a + b)

/-- IEEE subtraction a - b = a + (-b). -/
def subF (a b : NpF) : NpF := addF a (negF b)

/-- IEEE multiplication: NaN absorbs, infinity times zero gives NaN,
infinity times a signed value follows the sign rules. -/
def mulF : NpF → NpF → NpF
  | .nan, _ => .nan
  | _, .nan => .nan
  | .pinf, .pinf => .pinf
  | .pinf, .ninf => .ninf
  | .ninf, .pinf => .ninf
  | .ninf, .ninf => .pinf
  | .pinf, .fin b => if 0 < b then .pinf else if b < 0 then .ninf else .nan
  | .fin a, .pinf => if 0 < a then .pinf else if a < 0 then .ninf else .nan
  | .ninf, .fin b => if 0 < b then .ninf else if b < 0 then .pinf else .nan
  | .fin a, .ninf => if 0 < a then .ninf else if a < 0 then .pinf else .nan
  | .fin a, .fin b => .fin (a * b)

/-- IEEE absolute value. -/
def absF : NpF → NpF
  | .fin q => .fin |q|
  | .nan => .nan
  | _ => .pinf

/-- IEEE strict comparison: any comparison involving NaN is false. -/
def ltF : NpF → NpF → Bool
  | .nan, _ => false
  | _, .nan => false
  | .ninf, .ninf => false
  | .ninf, _ => true
  | _, .ninf => false
  | .pinf, _ => false
  | .fin _, .pinf => true
  | .fin a, .fin b => decide (a < b)

/-- Sum of a list of model floats, as numpy sums: starting from 0. -/
def sumListF (l : List NpF) : NpF := l.foldl addF (.fin 0)

/-- Sum of a Fin-indexed family of model floats. -/
def sumF (n : Nat) (f : Fin n → NpF) : NpF := sumListF ((List.finRange n).map f)

/-- Inner-loop state of infer_cpu over the float model. -/
structure InfStateF (nd nb : Nat) where
  u : Fin nb → Fin nd → NpF
  s : Fin nb → Fin nd → NpF
  thresh : Fin nb → NpF

/-- Overlap matrix c = Q.dot(Q.T) - eye(ndict) over the float model. -/
def cMatF {nd dd : Nat} (Q : Fin nd → Fin dd → NpF) : Fin nd → Fin nd → NpF :=
  fun i j => subF (sumF dd (fun k => mulF (Q i k) (Q j k)))
    (if i = j then .fin 1 else .fin 0)

/-- Overlaps b = (Q.dot(X)).T over the float model. -/
def bMatF {nd dd nb : Nat} (Q : Fin nd → Fin dd → NpF) (X : Fin dd → Fin nb → NpF) :
    Fin nb → Fin nd → NpF :=
  fun i j => sumF dd (fun k => mulF (Q j k) (X k i))

/-- Initial thresholds np.max([mean |b|, min_thresh]) over the float model;
np.max propagates NaN, so both arguments NaN-check first. -/
def initThreshF {nd nb : Nat} (bm : Fin nb → Fin nd → NpF) (mt : ℚ) : Fin nb → NpF :=
  fun i =>
    let m := mulF (sumF nd (fun j => absF (bm i j))) (.fin (1 / (nd : ℚ)))
    if isnanF m then .nan else if ltF m (.fin mt) then .fin mt else m

/-- Membrane-potential update over the float model (lines 126-127). -/
def uUpdateF {nd nb : Nat} (infrate : ℚ) (c : Fin nd → Fin nd → NpF)
    (bm : Fin nb → Fin nd → NpF) (st : InfStateF nd nb) : Fin nb → Fin nd → NpF :=
  fun i j => addF
    (mulF (.fin infrate) (subF (bm i j) (sumF nd (fun k => mulF (st.s i k) (c k j)))))
    (mulF (.fin (1 - infrate)) (st.u i j))

/-- Whether any entry of a matrix is NaN: np.max(np.isnan(u)) of line 128. -/
def anyNanMat {nd nb : Nat} (m : Fin nb → Fin nd → NpF) : Bool :=
  (List.finRange nb).any fun i => (List.finRange nd).any fun j => isnanF (m i j)

/-- One inner iteration of infer_cpu over the float model, with the guard of
lines 128-129: after updating u, raise ValueError (modelled as an error
string carrying the iteration index kk) when any entry of u is NaN; the
guard tests np.isnan only, so infinities pass through. -/
def innerStepF {nd nb : Nat} (infrate adapt mt : ℚ) (soft : Bool)
    (c : Fin nd → Fin nd → NpF) (bm : Fin nb → Fin nd → NpF) (kk : Nat)
    (st : InfStateF nd nb) : Except String (InfStateF nd nb) :=
  let u1 := uUpdateF infrate c bm st
  if anyNanMat u1 then
    .error ("Internal variable blew up at iteration " ++ toString kk)
  else
    let s1 : Fin nb → Fin nd → NpF := fun i j =>
      if soft then
        mulF (match u1 i j with
              | .fin q => .fin (sgnQ q)
              | .pinf => .fin 1
              | .ninf => .fin (-1)
              | .nan => .nan)
          (if ltF (subF (absF (u1 i j)) (st.thresh i)) (.fin 0) then .fin 0
           else subF (absF (u1 i j)) (st.thresh i))
      else if ltF (absF (u1 i j)) (st.thresh i) then .fin 0 else u1 i j
    let t1 : Fin nb → NpF := fun i =>
      if ltF (mulF (.fin adapt) (st.thresh i)) (.fin mt) then .fin mt
      else mulF (.fin adapt) (st.thresh i)
    .ok ⟨u1, s1, t1⟩

/-- The block of niter inner iterations over the float model, kk counting up
from 0 inside each block as in the source's range(self.niter). -/
def innerRunF {nd nb : Nat} (infrate adapt mt : ℚ) (soft : Bool)
    (c : Fin nd → Fin nd → NpF) (bm : Fin nb → Fin nd → NpF) :
    Nat → Nat → InfStateF nd nb → Except String (InfStateF nd nb)
  | _, 0, st => .ok st
  | kk, m + 1, st =>
    match innerStepF infrate adapt mt soft c bm kk st with
    | .error e => .error e
    | .ok st1 => innerRunF infrate adapt mt soft c bm (kk + 1) m st1

/-- Mean-squared error np.mean((X.T - s.dot(Q))**2) over the float model. -/
def mseF {nd dd nb : Nat} (Q : Fin nd → Fin dd → NpF) (X : Fin dd → Fin nb → NpF)
    (s : Fin nb → Fin nd → NpF) : NpF :=
  mulF
    (sumF nb (fun i => sumF dd (fun j =>
      let r := subF (X j i) (sumF nd (fun k => mulF (s i k) (Q k j)))
      mulF r r)))
    (.fin (1 / ((nb : ℚ) * (dd : ℚ))))

/-- Result of infer_cpu over the float model: a normal return carrying the
final state, a raised ValueError, or fuel exhaustion of the while loop. -/
inductive InferOutF (nd nb : Nat) where
  | done : InfStateF nd nb → NpF → InferOutF nd nb
  | raised : String → InferOutF nd nb
  | spinning : InferOutF nd nb

/-- Outer while loop of infer_cpu over the float model (line 123): the
condition error>tolerance is an IEEE comparison, false whenever the error
is NaN. -/
def outerLoopF {nd dd nb : Nat} (Q : Fin nd → Fin dd → NpF)
    (X : Fin dd → Fin nb → NpF) (infrate adapt mt : ℚ) (soft : Bool)
    (niter : Nat) (mi : Option Nat) (tol : ℚ) :
    Nat → Nat → NpF → InfStateF nd nb → InferOutF nd nb
  | 0, _, _, _ => .spinning
  | fuel + 1, k, err, st =>
    if (ltF (.fin tol) err && (match mi with | none => true | some m => decide (k < m))) then
      match innerRunF infrate adapt mt soft (cMatF Q) (bMatF Q X) 0 niter st with
      | .error e => .raised e
      | .ok st1 =>
          outerLoopF Q X infrate adapt mt soft niter mi tol fuel (k + 1)
            (mseF Q X st1.s) st1
    else .done st err

/-- infer_cpu over the float model: u and s start at zero, thresholds from
the overlaps, error starts at tolerance+1. -/
def inferCpuF {nd dd nb : Nat} (Q : Fin nd → Fin dd → NpF)
    (X : Fin dd → Fin nb → NpF) (infrate adapt mt : ℚ) (soft : Bool)
    (niter : Nat) (mi : Option Nat) (tol : ℚ) (fuel : Nat) : InferOutF nd nb :=
  outerLoopF Q X infrate adapt mt soft niter mi tol fuel 0 (.fin (tol + 1))
    ⟨fun _ _ => .fin 0, fun _ _ => .fin 0, initThreshF (bMatF Q X) mt⟩

/-- Final coefficient (entry of s) of an infer_cpu result, when it returned. -/
def outS {nd nb : Nat} (r : InferOutF nd nb) (i : Fin nb) (j : Fin nd) : Option NpF :=
  match r with
  | .done st _ => some (st.s i j)
  | _ => none

/-- Final membrane potential (entry of u) of an infer_cpu result. -/
def outU {nd nb : Nat} (r : InferOutF nd nb) (i : Fin nb) (j : Fin nd) : Option NpF :=
  match r with
  | .done st _ => some (st.u i j)
  | _ => none

/-- Whether an infer_cpu result is a raised error. -/
def outIsRaised {nd nb : Nat} (r : InferOutF nd nb) : Bool :=
  match r with
  | .raised _ => true
  | _ => false

/-- Unit 1x1 dictionary over the float model. -/
def Qf1 : Fin 1 → Fin 1 → NpF := fun _ _ => .fin 1

/-- 1x1 stimulus batch holding +infinity. -/
def Xfinf : Fin 1 → Fin 1 → NpF := fun _ _ => .pinf

/-- Zero 1x1 competition matrix over the float model. -/
def cZeroF : Fin 1 → Fin 1 → NpF := fun _ _ => .fin 0

/-- 1x1 overlap matrix holding NaN. -/
def bmNanF : Fin 1 → Fin 1 → NpF := fun _ _ => .nan

/-- Zero inner-loop float state. -/
def stZeroF : InfStateF 1 1 := ⟨fun _ _ => .fin 0, fun _ _ => .fin 0, fun _ => .fin 1⟩

set_option maxHeartbeats 1600000 in
/-- C4 counterexample: an inference call (1x1 unit dictionary, stimulus
+infinity, infrate 1, adapt 1, min_thresh 0, hard threshold, niter 1,
max_iter 4, tolerance 1) in which u becomes +infinity (non-finite) at inner
iteration 0, yet infer_cpu raises nothing — the guard tests np.isnan only —
and returns +infinity (non-finite) coefficients: after the first block the
error is inf - inf = NaN, NaN > tolerance is false, and the loop exits
normally. -/
theorem C4_inf_silent_cex :
    outU (inferCpuF Qf1 Xfinf 1 1 0 false 1 (some 4) 1 2) 0 0 = some NpF.pinf ∧
    outS (inferCpuF Qf1 Xfinf 1 1 0 false 1 (some 4) 1 2) 0 0 = some NpF.pinf ∧
    outIsRaised (inferCpuF Qf1 Xfinf 1 1 0 false 1 (some 4) 1 2) = false ∧
    isFiniteF NpF.pinf = false := by
  refine ⟨?_, ?_, ?_, rfl⟩ <;>
    norm_num [inferCpuF, outerLoopF, innerRunF, innerStepF, uUpdateF, anyNanMat, cMatF,
      bMatF, initThreshF, sumF, sumListF, mseF, outS, outU, outIsRaised, isnanF, ltF,
      addF, mulF, subF, negF, absF, Qf1, Xfinf, List.finRange_succ, List.finRange_zero]

/-- C4 amended: the guard of infer_cpu lines 128-129 fires exactly on NaN.
If any entry of the updated membrane potential u is NaN, the inner iteration
raises ValueError carrying the iteration index and aborts; if no entry is
NaN (in particular when entries are merely infinite) the iteration returns
normally with that u, so infinities pass the check and infinite coefficients
can be returned. -/
theorem C4_nan_guard {nd nb : Nat} (infrate adapt mt : ℚ) (soft : Bool)
    (c : Fin nd → Fin nd → NpF) (bm : Fin nb → Fin nd → NpF) (kk : Nat)
    (st : InfStateF nd nb) :
    (anyNanMat (uUpdateF infrate c bm st) = true →
      innerStepF infrate adapt mt soft c bm kk st =
        .error ("Internal variable blew up at iteration " ++ toString kk)) ∧
    (anyNanMat (uUpdateF infrate c bm st) = false →
      ∃ st1, innerStepF infrate adapt mt soft c bm kk st = .ok st1 ∧
        st1.u = uUpdateF infrate c bm st) := by
  constructor
  · intro h
    simp only [innerStepF, h, if_true]
  · intro h
    simp only [innerStepF, h, Bool.false_eq_true, if_false]
    exact ⟨_, rfl, rfl⟩

/-- Witness for C4 amended: with NaN overlaps the updated u is NaN and the
iteration with index 7 raises the ValueError carrying 7. -/
theorem C4_nan_guard_witness :
    anyNanMat (uUpdateF 1 cZeroF bmNanF stZeroF) = true ∧
      innerStepF 1 1 0 false cZeroF bmNanF 7 stZeroF =
        .error ("Internal variable blew up at iteration " ++ toString 7) := by
  have h : anyNanMat (uUpdateF 1 cZeroF bmNanF stZeroF) = true := by
    norm_num [anyNanMat, uUpdateF, sumF, sumListF, mulF, addF, subF, negF, isnanF,
      cZeroF, bmNanF, stZeroF, List.finRange_succ, List.finRange_zero]
  exact ⟨h, (C4_nan_guard 1 1 0 false cZeroF bmNanF 7 stZeroF).1 h⟩

/-- Python exceptions relevant to DictLearner.run's checkpoint block. -/
inductive PyErr where
  | valueError : String → PyErr
  | typeError : String → PyErr
  | notImplementedError : PyErr
deriving DecidableEq

/-- DictLearner.get_param_list (lines 288-289): raises NotImplementedError;
neither DictLearner nor LCALearner overrides it. -/
def get_param_list : Except PyErr Unit := .error .notImplementedError

/-- Python `or` on optional strings: None and the empty string are falsy. -/
def pyOrStr (a b : Option String) : Option String :=
  match a with
  | none => b
  | some x => if x = "" then b else some x

/-- DictLearner.save (lines 291-301): resolve the filename (ValueError when
both the argument and self.paramfile are missing), then gather the parameter
list (which raises NotImplementedError), then pickle (modelled as
succeeding). -/
def DictLearner_save (filename paramfile : Option String) : Except PyErr Unit :=
  match pyOrStr filename paramfile with
  | none => .error (.valueError "You need to input a filename.")
  | some _ =>
    match get_param_list with
    | .error e => .error e
    | .ok _ => .ok ()

/-- String concatenation "..." + self.paramfile in the print of run line
138: concatenating None raises TypeError. -/
def pyConcatStr (a : String) (b : Option String) : Except PyErr String :=
  match b with
  | some t => .ok (a ++ t)
  | none => .error (.typeError "can only concatenate str (not NoneType) to str")

/-- Body of the try block of DictLearner.run lines 137-139: print the
message (which itself can raise TypeError on a missing filename), then call
save with no explicit filename. -/
def runSaveAttempt (paramfile : Option String) : Except PyErr Unit :=
  match pyConcatStr "Saving progress to " paramfile with
  | .error e => .error e
  | .ok _ => DictLearner_save none paramfile

/-- The except (ValueError, TypeError) clause of DictLearner.run lines
140-141: those two exception types are logged and swallowed (the trial loop
then continues); every other exception propagates. -/
def runSaveHandler : Except PyErr Unit → Except PyErr Unit
  | .error (.valueError _) => .ok ()
  | .error (.typeError _) => .ok ()
  | r => r

/-- One checkpoint attempt of the trial loop, lines 136-141: an .ok result
means the loop continues to the next trial, an .error result propagates out
of run and aborts the loop. -/
def runSaveStep (paramfile : Option String) : Except PyErr Unit :=
  runSaveHandler (runSaveAttempt paramfile)

/-- C9 counterexample: with a configured paramfile, the checkpoint save
fails inside save through the unimplemented get_param_list hook with
NotImplementedError, which the except (ValueError, TypeError) clause does
not match, so the failure propagates out of the trial loop instead of being
caught and logged. -/
theorem C9_save_not_caught_cex :
    runSaveStep (some "f.pkl") = .error .notImplementedError := rfl

/-- C9 amended: only ValueError and TypeError raised during the checkpoint
save are caught and logged, after which the trial loop continues; in
particular a missing filename (surfacing as TypeError from the log-message
concatenation, or as save's ValueError) is swallowed, while the
NotImplementedError from the unimplemented get_param_list hook escapes the
handler and aborts the loop on every attempt with a configured filename. -/
theorem C9_save_handler :
    (∀ m, runSaveHandler (.error (.valueError m)) = .ok ()) ∧
    (∀ m, runSaveHandler (.error (.typeError m)) = .ok ()) ∧
    runSaveHandler (.error .notImplementedError) = .error .notImplementedError ∧
    runSaveStep none = .ok () ∧
    (∀ pf, runSaveStep (some pf) = .error .notImplementedError) := by
  refine ⟨fun m => rfl, fun m => rfl, rfl, rfl, fun pf => ?_⟩
  simp only [runSaveStep, runSaveAttempt, pyConcatStr, DictLearner_save, pyOrStr,
    get_param_list]
  rfl

/-- Option-valued traversal of a list, used to model numpy indexing that can
be out of range: all lookups must succeed. -/
def seqOpt {α β : Type} (f : α → Option β) : List α → Option (List β)
  | [] => some []
  | x :: xs =>
    match f x, seqOpt f xs with
    | some y, some ys => some (y :: ys)
    | _, _ => none

/-- Basic two-index lookup A[i, j] on a matrix given as a list of rows. -/
def npGet2 (m : List (List ℚ)) (i j : Nat) : Option ℚ :=
  match m[i]? with
  | some r => r[j]?
  | none => none

/-- numpy advanced indexing A[s, s] with the same integer array on both
axes: the result is the 1-D array whose k-th entry is A[s[k], s[k]]. -/
def npIndexBothSame (m : List (List ℚ)) (s : List Nat) : Option (List ℚ) :=
  seqOpt (fun i => npGet2 m i i) s

/-- Row permutation A[s]. -/
def npPermRows (m : List (List ℚ)) (s : List Nat) : Option (List (List ℚ)) :=
  seqOpt (fun i => m[i]?) s

/-- Column permutation A[:, s]. -/
def npPermCols (m : List (List ℚ)) (s : List Nat) : Option (List (List ℚ)) :=
  seqOpt (fun r => seqOpt (fun j => r[j]?) s) m

/-- Two-axis permutation A[s][:, s], the N x N matrix the spec regards as
the intended result of the sort. -/
def npPermBoth (m : List (List ℚ)) (s : List Nat) : Option (List (List ℚ)) :=
  match npPermRows m s with
  | some m2 => npPermCols m2 s
  | none => none

/-- A numpy array value as stored dynamically in an attribute: 1-D or 2-D. -/
inductive NpVal where
  | vec : List ℚ → NpVal
  | mat : List (List ℚ) → NpVal
deriving DecidableEq

/-- Shape of a stored array value. -/
def npShape : NpVal → List Nat
  | .vec v => [v.length]
  | .mat m => [m.length, (m.head?.map List.length).getD 0]

/-- The correlation-matrix update of DictLearner.sort line 264:
self.corrmatrix_ave = self.corrmatrix_ave[sorter, sorter], which stores a
1-D array. -/
def sortCorrUpdate (m : List (List ℚ)) (s : List Nat) : Option NpVal :=
  match npIndexBothSame m s with
  | some v => some (.vec v)
  | none => none

/-- A successful traversal preserves the length of the index list. -/
lemma seqOpt_length {α β : Type} (f : α → Option β) :
    ∀ (l : List α) (res : List β), seqOpt f l = some res → res.length = l.length := by
  intro l
  induction l with
  | nil =>
      intro res h
      simp only [seqOpt, Option.some.injEq] at h
      subst h
      rfl
  | cons x xs ih =>
      intro res h
      simp only [seqOpt] at h
      cases hfx : f x <;> rw [hfx] at h
      · simp at h
      · cases hrec : seqOpt f xs <;> rw [hrec] at h
        · simp at h
        · simp only [Option.some.injEq] at h
          subst h
          simp [ih _ hrec]

/-- Entries of a successful traversal: the k-th entry of the result is f of
the k-th entry of the index list. -/
lemma seqOpt_getElem {α β : Type} (f : α → Option β) :
    ∀ (l : List α) (res : List β), seqOpt f l = some res →
      ∀ k : Nat, res[k]? = (l[k]?).bind f := by
  intro l
  induction l with
  | nil =>
      intro res h k
      simp only [seqOpt, Option.some.injEq] at h
      subst h
      simp
  | cons x xs ih =>
      intro res h k
      simp only [seqOpt] at h
      cases hfx : f x <;> rw [hfx] at h
      · simp at h
      · cases hrec : seqOpt f xs <;> rw [hrec] at h
        · simp at h
        · simp only [Option.some.injEq] at h
          subst h
          cases k with
          | zero => simp [hfx]
          | succ k => simp [ih _ hrec k]

/-- C8: the correlation-matrix update of DictLearner.sort indexes both axes
with the same permutation, corrmatrix_ave[sorter, sorter].  First conjunct:
whenever the update succeeds it stores a 1-D array of length N = len(sorter).
Second conjunct: its k-th entry is the diagonal entry A[sorter[k], sorter[k]].
Third conjunct: that stored vector is exactly the diagonal of the two-axis
permuted matrix A[sorter][:, sorter] (rather than that N x N matrix itself).
Fourth conjunct: for N ≥ 2 the stored value does not have the N x N shape,
so the stored statistic is no longer an N x N matrix. -/
theorem C8_sort_corr_diag :
    (∀ (m : List (List ℚ)) (s : List Nat) (nv : NpVal),
        sortCorrUpdate m s = some nv → npShape nv = [s.length]) ∧
    (∀ (m : List (List ℚ)) (s : List Nat) (v : List ℚ) (k : Nat),
        npIndexBothSame m s = some v →
        v[k]? = (s[k]?).bind (fun i => npGet2 m i i)) ∧
    (∀ (m M : List (List ℚ)) (s : List Nat) (v : List ℚ) (k : Nat),
        npIndexBothSame m s = some v → npPermBoth m s = some M →
        (M[k]?).bind (fun r => r[k]?) = v[k]?) ∧
    (∀ (m : List (List ℚ)) (s : List Nat) (nv : NpVal),
        2 ≤ s.length → sortCorrUpdate m s = some nv →
        npShape nv ≠ [s.length, s.length]) := by
  have hshape : ∀ (m : List (List ℚ)) (s : List Nat) (nv : NpVal),
      sortCorrUpdate m s = some nv → npShape nv = [s.length] := by
    intro m s nv h
    unfold sortCorrUpdate at h
    cases hv : npIndexBothSame m s <;> rw [hv] at h
    · simp at h
    · simp only [Option.some.injEq] at h
      subst h
      simp [npShape, seqOpt_length _ _ _ hv]
  refine ⟨hshape, ?_, ?_, ?_⟩
  · intro m s v k hv
    exact seqOpt_getElem _ _ _ hv k
  · intro m M s v k hv hM
    unfold npPermBoth at hM
    cases hr : npPermRows m s <;> rw [hr] at hM
    · simp at hM
    · next m2 =>
      have hMk := seqOpt_getElem _ _ _ hM k
      have hm2k := seqOpt_getElem _ _ _ hr k
      have hvk := seqOpt_getElem _ _ _ hv k
      rw [hvk, hMk, hm2k]
      cases hsk : s[k]? with
      | none => simp
      | some i =>
          simp only [Option.some_bind]
          cases hmi : m[i]? with
          | none => simp [npGet2, hmi]
          | some r =>
              simp only [Option.some_bind]
              cases hrow : seqOpt (fun j => r[j]?) s with
              | some row =>
                  simp only [Option.some_bind]
                  rw [seqOpt_getElem _ _ _ hrow k, hsk]
                  simp [npGet2, hmi]
              | none =>
                  exfalso
                  have hks : k < s.length := (List.getElem?_eq_some.mp hsk).1
                  have hm2len : m2.length = s.length := seqOpt_length _ _ _ hr
                  have hMlen : M.length = m2.length := seqOpt_length _ _ _ hM
                  have hMnone : M[k]? = none := by
                    rw [hMk, hm2k, hsk]
                    simp [hmi, hrow]
                  have : M.length ≤ k := by
                    by_contra hlt
                    push_neg at hlt
                    rcases List.getElem?_eq_getElem hlt with h
                    rw [hMnone] at h
                    exact Option.noConfusion h
                  omega
  · intro m s nv h2 h
    rw [hshape m s nv h]
    intro heq
    simp at heq

/-- Concrete 2x2 correlation matrix for the C8 witness. -/
def corrW : List (List ℚ) := [[1, 2], [3, 4]]

/-- Concrete sort permutation for the C8 witness. -/
def sorterW : List Nat := [1, 0]

/-- Witness for C8 on the 2x2 matrix [[1,2],[3,4]] with sorter [1,0]: the
stored value is the 1-D diagonal [4,1] of shape [2], its entries are the
diagonal entries at the sorted positions, it agrees with the diagonal of the
two-axis permutation [[4,3],[2,1]], and its shape is not [2,2]. -/
theorem C8_sort_corr_diag_witness :
    (sortCorrUpdate corrW sorterW = some (.vec [4, 1]) ∧
      npShape (.vec [4, 1]) = [sorterW.length]) ∧
    (npIndexBothSame corrW sorterW = some [4, 1] ∧
      (([4, 1] : List ℚ))[0]? = (sorterW[0]?).bind (fun i => npGet2 corrW i i)) ∧
    (npPermBoth corrW sorterW = some [[4, 3], [2, 1]] ∧
      ((([[4, 3], [2, 1]] : List (List ℚ)))[1]?).bind (fun r => r[1]?) =
        (([4, 1] : List ℚ))[1]?) ∧
    (2 ≤ sorterW.length ∧
      npShape (.vec [4, 1]) ≠ [sorterW.length, sorterW.length]) := by
  have h1 : sortCorrUpdate corrW sorterW = some (.vec [4, 1]) := by decide
  have h2 : npIndexBothSame corrW sorterW = some [4, 1] := by decide
  have h3 : npPermBoth corrW sorterW = some [[4, 3], [2, 1]] := by decide
  exact ⟨⟨h1, C8_sort_corr_diag.1 corrW sorterW _ h1⟩,
         ⟨h2, C8_sort_corr_diag.2.1 corrW sorterW [4, 1] 0 h2⟩,
         ⟨h3, C8_sort_corr_diag.2.2.1 corrW [[4, 3], [2, 1]] sorterW [4, 1] 1 h2 h3⟩,
         ⟨by decide, C8_sort_corr_diag.2.2.2 corrW sorterW _ (by decide) h1⟩⟩
